import Mathlib

/-!
Verification of the prosemirror-mentions plugin (src/src/mentionPlugin.js and
the node-spec module) against its natural-language specification.

The JavaScript source is shallowly embedded: document text is a list of
characters, the end-anchored trigger regexes are modelled by an explicit
scan over start positions, plugin state and the keyboard handler are pure
functions, and the debounce / fetch pipeline is a small labelled transition
system over an explicit system state.
-/

namespace ProsemirrorMentions

/-- Whitespace per the JavaScript regex class \s (ECMAScript WhiteSpace and
LineTerminator characters). -/
def isWs (c : Char) : Bool :=
  c == ' ' || c == '\t' || c == '\n' || c == '\x0b' || c == '\x0c' || c == '\r' ||
  c == '\u00A0' || c == '\u1680' || ('\u2000' ≤ c && c ≤ '\u200A') ||
  c == '\u2028' || c == '\u2029' || c == '\u202F' || c == '\u205F' ||
  c == '\u3000' || c == '\uFEFF'

/-- Word characters per the JavaScript regex class \w: ASCII letters, digits
and underscore. -/
def wordChar (c : Char) : Bool :=
  c.isAlphanum || c == '_'

/-- Characters admitted inside a mention query by the class [\w-\+] of
getRegexp (mentionPlugin.js line 16): word characters plus literal hyphen
and plus. -/
def mentionChar (c : Char) : Bool :=
  wordChar c || c == '-' || c == '+'

/-- Characters admitted inside a tag query by the class [\w-] of getRegexp
(mentionPlugin.js line 20): word characters plus literal hyphen. -/
def tagChar (c : Char) : Bool :=
  wordChar c || c == '-'

/-- Language of the mention query group of getRegexp: with allowSpace the
group is [\w-\+]op \s? [\w-\+]* and without it [\w-\+]op, where op is +
when requireText and * otherwise.  A string is in the language iff every
character is a mention character or whitespace, at most one character is
whitespace (none when allowSpace is false), and when requireText holds the
first character is a mention character. -/
def mentionQueryOk (allowSpace requireText : Bool) (s : List Char) : Bool :=
  if allowSpace then
    s.all (fun c => mentionChar c || isWs c) &&
    decide ((s.filter isWs).length ≤ 1) &&
    (!requireText || (match s.head? with
      | some c => mentionChar c
      | none => false))
  else
    s.all mentionChar && (!requireText || !s.isEmpty)

/-- Language of the tag query group ([\w-]+) of getRegexp. -/
def tagQueryOk (s : List Char) : Bool :=
  !s.isEmpty && s.all tagChar

/-- Success of the ^-alternative of the regex (^|\s)T(Q)$ at position 0:
the text starts with the trigger character and the rest is in the query
language. -/
def startBranch (trig : Char) (qOk : List Char → Bool) (text : List Char) : Bool :=
  match text with
  | c :: rest => c == trig && qOk rest
  | [] => false

/-- Success of the \s-alternative of the regex (^|\s)T(Q)$ at start
position i: a whitespace character at i, the trigger character at i+1, and
the remainder of the text in the query language (the $ anchor forces the
query group to extend to the end of the text). -/
def wsBranchAt (trig : Char) (qOk : List Char → Bool) (text : List Char) (i : Nat) : Bool :=
  match text.drop i with
  | w :: c :: rest => isWs w && c == trig && qOk rest
  | _ => false

/-- Raw regex match record: index is match.index (start of match[0], the
anchoring whitespace included when the \s alternative fired), viaWs tells
which alternative of (^|\s) matched. -/
structure RawMatch where
  index : Nat
  viaWs : Bool
deriving DecidableEq, Repr

/-- Result of JavaScript text.match(regex) for the end-anchored pattern
(^|\s)T(Q)$: the engine scans start positions from the left; at position 0
the ^ alternative is tried first, then the \s alternative at every
position.  Returns the leftmost successful position. -/
def rawMatch (trig : Char) (qOk : List Char → Bool) (text : List Char) : Option RawMatch :=
  if startBranch trig qOk text then some ⟨0, false⟩
  else
    match (List.range text.length).find? (wsBranchAt trig qOk text) with
    | some i => some ⟨i, true⟩
    | none => none

/-- Match type strings of mentionPlugin.js lines 54-59. -/
inductive MatchType where
  | mention
  | tag
deriving DecidableEq, Repr

/-- Return value of getMatch (mentionPlugin.js lines 75-79). -/
structure MatchResult where
  rangeFrom : Nat
  rangeTo : Nat
  queryText : List Char
  type : MatchType
deriving DecidableEq, Repr

/-- Post-processing of a raw regex match by getMatch (mentionPlugin.js
lines 62-79): when match[0] starts with a literal space character the
space is dropped and match.index incremented; from and to are the start
offset of the paragraph plus the corrected index and matched length;
queryText is capture group 2, the text after the trigger character. -/
def finishMatch (startOff : Nat) (text : List Char) (ty : MatchType) (rm : RawMatch) :
    MatchResult :=
  let m0 := text.drop rm.index
  let strip := match m0.head? with
    | some c => c == ' '
    | none => false
  let index := if strip then rm.index + 1 else rm.index
  let m0s := if strip then m0.drop 1 else m0
  let f := startOff + index
  ⟨f, f + m0s.length, text.drop (rm.index + (if rm.viaWs then 2 else 1)), ty⟩

/-- Trigger/flag configuration (the regex-relevant fields of the plugin
options, defaults at mentionPlugin.js lines 117-121). -/
structure Opts where
  mentionTrigger : Char
  hashtagTrigger : Char
  allowSpace : Bool
  requireText : Bool
deriving DecidableEq, Repr

/-- Default options: mentionTrigger "@", hashtagTrigger "#",
allowSpace true, requireText false. -/
def defaultOpts : Opts :=
  ⟨'@', '#', true, false⟩

/-- text.match(regex.mention) of mentionPlugin.js line 48. -/
def mentionRegexMatch (opts : Opts) (text : List Char) : Option RawMatch :=
  rawMatch opts.mentionTrigger (mentionQueryOk opts.allowSpace opts.requireText) text

/-- text.match(regex.tag) of mentionPlugin.js line 49. -/
def tagRegexMatch (opts : Opts) (text : List Char) : Option RawMatch :=
  rawMatch opts.hashtagTrigger tagQueryOk text

/-- getMatch (mentionPlugin.js lines 34-82) on the paragraph text before
the cursor: the mention regex is evaluated first (match = mentionMatch ||
tagMatch, type set to mention when the mention regex matched), then the
raw match is post-processed by finishMatch.  startOff is the value of
position.start(), the document offset of the paragraph text start. -/
def getMatch (opts : Opts) (startOff : Nat) (text : List Char) : Option MatchResult :=
  match mentionRegexMatch opts text with
  | some rm => some (finishMatch startOff text MatchType.mention rm)
  | none =>
    match tagRegexMatch opts text with
    | some rm => some (finishMatch startOff text MatchType.tag rm)
    | none => none

/-- Trigger character associated with a match type. -/
def trigOf (opts : Opts) : MatchType → Char
  | MatchType.mention => opts.mentionTrigger
  | MatchType.tag => opts.hashtagTrigger

/-- Plugin suggestion state (getNewState, mentionPlugin.js lines 101-111);
stype holds the source's type string ("", "mention" or "tag"). -/
structure SuggestionState where
  active : Bool
  rangeFrom : Nat
  rangeTo : Nat
  stype : String
  text : List Char
deriving DecidableEq, Repr

/-- getNewState (mentionPlugin.js lines 101-111). -/
def getNewState : SuggestionState :=
  ⟨false, 0, 0, "", []⟩

/-- Type string stored in the state (mentionPlugin.js line 108 comment:
mention or tag). -/
def typeStr : MatchType → String
  | MatchType.mention => "mention"
  | MatchType.tag => "tag"

/-- Abstraction of a transaction's resulting selection together with the
data getMatch reads through the resolved position: selFrom/selTo are
selection.from/selection.to, startOff is position.start(), and textBefore
is the paragraph text from position.before() to the cursor. -/
structure SelectionModel where
  selFrom : Nat
  selTo : Nat
  startOff : Nat
  textBefore : List Char
deriving DecidableEq, Repr

/-- The plugin state apply function (mentionPlugin.js lines 221-241): a
fresh inactive state unless the selection is a caret and getMatch finds a
trigger span, in which case the match's fields are copied into the state. -/
def applyTr (opts : Opts) (sel : SelectionModel) : SuggestionState :=
  if sel.selFrom ≠ sel.selTo then getNewState
  else
    match getMatch opts sel.startOff sel.textBefore with
    | some m => ⟨true, m.rangeFrom, m.rangeTo, typeStr m.type, m.queryText⟩
    | none => getNewState

/-- Observable outcome of handleKeyDown (mentionPlugin.js lines 247-278):
whether the event was consumed; the effective plugin state afterwards,
i.e. the state that the next this.getState(view.state) returns, which is
the state stored in the editor state under the plugin key — handleKeyDown
never dispatches a state-updating transaction, so this is always the
input state; the value assigned to the plugin object's own state field by
the Escape branch (the assignment at line 272 — a dead store, since every
read of the plugin state goes through this.getState(view.state), never
through that field); and which effects ran (hideList, clearTimeout of the
pending debounced task, goNext, goPrev, select). -/
structure KeyDownResult where
  consumed : Bool
  effectiveState : SuggestionState
  pluginObjState : Option SuggestionState
  hidOverlay : Bool
  cancelledPending : Bool
  calledGoNext : Bool
  calledGoPrev : Bool
  calledSelect : Bool
deriving DecidableEq, Repr

/-- handleKeyDown (mentionPlugin.js lines 247-278): inactive state passes
every key through; when active, keyCode 40 forwards goNext, 38 goPrev, 13
runs select, 27 clears the pending timeout, hides the list, assigns
getNewState() to this.state and consumes; every other key is handed back
to the editor.  The state under the plugin key is read-only here: every
branch returns it unchanged, and the Escape branch's assignment only
lands in the unread plugin-object field. -/
def handleKeyDown (st : SuggestionState) (keyCode : Nat) : KeyDownResult :=
  if !st.active then ⟨false, st, none, false, false, false, false, false⟩
  else if keyCode == 40 then ⟨true, st, none, false, false, true, false, false⟩
  else if keyCode == 38 then ⟨true, st, none, false, false, false, true, false⟩
  else if keyCode == 13 then ⟨true, st, none, false, false, false, false, true⟩
  else if keyCode == 27 then ⟨true, st, some getNewState, true, true, false, false, false⟩
  else ⟨false, st, none, false, false, false, false, false⟩

/-- Inline document item: a text character or an atomic typed node with
attributes, as produced by schema.nodes[type].create(attrs). -/
inductive Inline where
  | ch (c : Char)
  | node (typeName : String) (attrs : List (String × String))
deriving DecidableEq, Repr

/-- tr.replaceWith(from, to, node) on the inline content: the items of the
span [from, to) are replaced by the single node. -/
def replaceWith (doc : List Inline) (f t : Nat) (n : Inline) : List Inline :=
  doc.take f ++ [n] ++ doc.drop t

/-- The select function (mentionPlugin.js lines 196-206), with the result
of opts.getCurItemAttrsForSelect passed in: when attributes are present a
node of the state's type is created and dispatched as a replaceWith
transaction over the state's range; otherwise nothing happens.  Returns
the document, the plugin state and whether a transaction was dispatched. -/
def select (attrs : Option (List (String × String))) (doc : List Inline)
    (st : SuggestionState) : List Inline × SuggestionState × Bool :=
  match attrs with
  | some a => (replaceWith doc st.rangeFrom st.rangeTo (Inline.node st.stype a), st, true)
  | none => (doc, st, false)

/-- Timed semantics of the debounce utility (mentionPlugin.js lines
88-99): each call (t, f) does clearTimeout on the previous timer and
setTimeout(f, delay), so the timer of call i fires at time t_i + delay
unless the next call happens strictly earlier.  Given the time-ordered
call list, returns the list of (fire time, task) executions. -/
def fireTimes {α : Type} (delay : Nat) : List (Nat × α) → List (Nat × α)
  | [] => []
  | [(t, f)] => [(t + delay, f)]
  | (t, f) :: (t2, g) :: rest =>
    if t2 < t + delay then fireTimes delay ((t2, g) :: rest)
    else (t + delay, f) :: fireTimes delay ((t2, g) :: rest)

/-- Consecutive calls in the list are separated by less than delay. -/
def allWithin {α : Type} (delay : Nat) : List (Nat × α) → Bool
  | (t, _) :: (t2, g) :: rest => decide (t2 < t + delay) && allWithin delay ((t2, g) :: rest)
  | _ => true

/-- Snapshot of (state.type, state.text) captured by the closure that the
view update function hands to debounce (mentionPlugin.js lines 306-315). -/
structure FetchSnap where
  ftype : String
  ftext : List Char
deriving DecidableEq, Repr

/-- State of the update / debounce / fetch / overlay pipeline of the
plugin view (mentionPlugin.js lines 296-316): the current plugin state,
the debounced task not yet fired (showListTimeoutId's pending closure),
the fetches whose getSuggestions call has started but whose callWhenDone
callback has not yet run (keyed by an id, each with the state snapshot its
closure captured), a counter for fresh ids, and the overlay content
(none when hidden, some items after a showList call). -/
structure SysState where
  plugin : SuggestionState
  pending : Option FetchSnap
  inFlight : List (Nat × FetchSnap)
  nextId : Nat
  overlay : Option (List Nat)
deriving DecidableEq, Repr

/-- Events driving the pipeline: a view update with the freshly applied
plugin state, the debounce timer firing, and the completion of an
in-flight getSuggestions call delivering its suggestion items. -/
inductive Event where
  | update (st : SuggestionState)
  | timerFire
  | resolve (id : Nat) (items : List Nat)
deriving DecidableEq, Repr

/-- One step of the pipeline, following view.update and the callbacks it
installs (mentionPlugin.js lines 296-316): on update, an inactive state
(or empty text under requireText) hides the list and clears the pending
timeout, otherwise the debounced task capturing the current (type, text)
replaces any pending one; on timer fire the pending task starts its
getSuggestions call; when a started call resolves, its callWhenDone runs
showList with the delivered items unconditionally. -/
def step (requireText : Bool) (sys : SysState) : Event → SysState
  | Event.update st =>
    if !st.active || (requireText && st.text.isEmpty) then
      { sys with plugin := st, pending := none, overlay := none }
    else
      { sys with plugin := st, pending := some ⟨st.stype, st.text⟩ }
  | Event.timerFire =>
    match sys.pending with
    | some s =>
      { sys with pending := none, inFlight := sys.inFlight ++ [(sys.nextId, s)],
                 nextId := sys.nextId + 1 }
    | none => sys
  | Event.resolve id items =>
    if sys.inFlight.any (fun p => p.1 == id) then
      { sys with inFlight := sys.inFlight.filter (fun p => p.1 != id),
                 overlay := some items }
    else sys

/-- Folds a list of events through the pipeline step function. -/
def run (requireText : Bool) (init : SysState) (evs : List Event) : SysState :=
  evs.foldl (step requireText) init

/-- Initial pipeline state: fresh plugin state, nothing pending, nothing
in flight, overlay hidden. -/
def initSys : SysState :=
  ⟨getNewState, none, [], 0, none⟩

/-- Output of a toDOM spec array [tagName, attribute map, text content]. -/
structure DOMOutputSpec where
  tagName : String
  attrs : List (String × String)
  content : String
deriving DecidableEq, Repr

/-- Attributes of the mention node spec (unnamed module, mentionNode). -/
structure MentionAttrs where
  did : String
  handle : String
deriving DecidableEq, Repr

/-- Attributes of the tag node spec (unnamed module, tagNode). -/
structure TagAttrs where
  tag : String
deriving DecidableEq, Repr

/-- mentionNode.toDOM: a span carrying data-mention-did and
data-mention-handle, rendering the text "@" followed by the handle. -/
def mentionToDOM (a : MentionAttrs) : DOMOutputSpec :=
  ⟨"span",
   [("data-mention-did", a.did), ("data-mention-handle", a.handle),
    ("class", "prosemirror-mention-node")],
   "@" ++ a.handle⟩

/-- tagNode.toDOM: a span carrying data-tag, rendering the text "#"
followed by the tag. -/
def tagToDOM (a : TagAttrs) : DOMOutputSpec :=
  ⟨"span", [("data-tag", a.tag), ("class", "prosemirror-tag-node")], "#" ++ a.tag⟩

/-- DOM getAttribute on the attribute list of a rendered span. -/
def getAttribute (d : DOMOutputSpec) (k : String) : Option String :=
  (d.attrs.find? (fun p => p.1 == k)).map (fun p => p.2)

/-- mentionNode.parseDOM: the CSS selector
span[data-mention-did][data-mention-handle] requires a span with both
attributes present; getAttrs then reads them back. -/
def mentionGetAttrs (d : DOMOutputSpec) : Option MentionAttrs :=
  if d.tagName == "span" then
    match getAttribute d "data-mention-did", getAttribute d "data-mention-handle" with
    | some did, some handle => some ⟨did, handle⟩
    | _, _ => none
  else none

/-- tagNode.parseDOM: the CSS selector span[data-tag] requires a span with
the data-tag attribute present; getAttrs reads it back. -/
def tagGetAttrs (d : DOMOutputSpec) : Option TagAttrs :=
  if d.tagName == "span" then
    match getAttribute d "data-tag" with
    | some t => some ⟨t⟩
    | none => none
  else none

/-- Declarative trigger condition: somewhere in the text the trigger
character appears, preceded by nothing (start of line) or by a whitespace
character, and the whole remaining text after the trigger lies in the
query language. -/
def TriggeredAt (trig : Char) (qOk : List Char → Bool) (text : List Char) : Prop :=
  ∃ pre q, text = pre ++ trig :: q ∧
    (pre = [] ∨ ∃ pre2 w, pre = pre2 ++ [w] ∧ isWs w = true) ∧
    qOk q = true

/-- Active state for the query text "al" (after typing "@al"). -/
def stateAl : SuggestionState :=
  ⟨true, 7, 10, "mention", ['a', 'l']⟩

/-- Active state for the query text "ali" (after typing "@ali"). -/
def stateAli : SuggestionState :=
  ⟨true, 7, 11, "mention", ['a', 'l', 'i']⟩

/-- Event trace of the stale-fetch scenario: fetch 0 is started for
query "al", the query grows to "ali", fetch 1 is started for it, fetch 1
resolves with items [2], and finally the older fetch 0 resolves with
items [1]. -/
def c1Events : List Event :=
  [Event.update stateAl, Event.timerFire, Event.update stateAli, Event.timerFire,
   Event.resolve 1 [2], Event.resolve 0 [1]]

theorem startBranch_iff {trig : Char} {qOk : List Char → Bool} {text : List Char} :
    startBranch trig qOk text = true ↔ ∃ q, text = trig :: q ∧ qOk q = true := by
  cases text with
  | nil => simp [startBranch]
  | cons c rest =>
    simp only [startBranch, Bool.and_eq_true, beq_iff_eq]
    constructor
    · rintro ⟨h1, h2⟩
      exact ⟨rest, by rw [h1], h2⟩
    · rintro ⟨q, hq, h2⟩
      injection hq with h1 h3
      subst h1
      subst h3
      exact ⟨rfl, h2⟩

theorem wsBranchAt_iff {trig : Char} {qOk : List Char → Bool} {text : List Char} {i : Nat} :
    wsBranchAt trig qOk text i = true ↔
      ∃ w q, text.drop i = w :: trig :: q ∧ isWs w = true ∧ qOk q = true := by
  unfold wsBranchAt
  cases h : text.drop i with
  | nil => simp
  | cons w rest =>
    cases rest with
    | nil => simp
    | cons c q =>
      simp only [Bool.and_eq_true, beq_iff_eq]
      constructor
      · rintro ⟨⟨hw, hc⟩, hq⟩
        exact ⟨w, q, by rw [hc], hw, hq⟩
      · rintro ⟨w2, q2, heq, hw2, hq2⟩
        injection heq with h1 heq2
        injection heq2 with h2 h3
        subst h1
        subst h2
        subst h3
        exact ⟨⟨hw2, rfl⟩, hq2⟩

theorem drop_decomp {l rest : List Char} {i : Nat} (h : l.drop i = rest) (hne : rest ≠ []) :
    ∃ pre, l = pre ++ rest ∧ pre.length = i := by
  refine ⟨l.take i, ?_, ?_⟩
  · rw [← h, List.take_append_drop]
  · have hle : i ≤ l.length := by
      by_contra hlt
      push_neg at hlt
      have h2 := List.drop_eq_nil_of_le (Nat.le_of_lt hlt)
      rw [h] at h2
      exact hne h2
    simp [List.length_take, Nat.min_eq_left hle]

theorem rawMatch_some_false {trig : Char} {qOk : List Char → Bool} {text : List Char} {i : Nat}
    (h : rawMatch trig qOk text = some ⟨i, false⟩) :
    i = 0 ∧ startBranch trig qOk text = true := by
  unfold rawMatch at h
  split at h
  next hs =>
    simp only [Option.some.injEq, RawMatch.mk.injEq] at h
    exact ⟨h.1.symm, hs⟩
  next hs =>
    cases hfind : (List.range text.length).find? (wsBranchAt trig qOk text) with
    | none =>
      rw [hfind] at h
      cases h
    | some j =>
      rw [hfind] at h
      simp only [Option.some.injEq, RawMatch.mk.injEq] at h
      exact absurd h.2 (by decide)

theorem rawMatch_some_true {trig : Char} {qOk : List Char → Bool} {text : List Char} {i : Nat}
    (h : rawMatch trig qOk text = some ⟨i, true⟩) :
    wsBranchAt trig qOk text i = true ∧ i < text.length := by
  unfold rawMatch at h
  split at h
  next hs =>
    simp only [Option.some.injEq, RawMatch.mk.injEq] at h
    exact absurd h.2 (by decide)
  next hs =>
    cases hfind : (List.range text.length).find? (wsBranchAt trig qOk text) with
    | none =>
      rw [hfind] at h
      cases h
    | some j =>
      rw [hfind] at h
      simp only [Option.some.injEq, RawMatch.mk.injEq] at h
      obtain ⟨hj, -⟩ := h
      subst hj
      exact ⟨List.find?_some hfind,
        List.mem_range.mp (List.mem_of_find?_eq_some hfind)⟩

theorem rawMatch_isSome_of_triggeredAt {trig : Char} {qOk : List Char → Bool}
    {text : List Char} (h : TriggeredAt trig qOk text) :
    (rawMatch trig qOk text).isSome = true := by
  obtain ⟨pre, q, htext, hpre, hq⟩ := h
  unfold rawMatch
  split
  next => rfl
  next hs =>
    rcases hpre with rfl | ⟨pre2, w, rfl, hw⟩
    · exact absurd (startBranch_iff.mpr ⟨q, by simpa using htext, hq⟩) hs
    · have hdrop : text.drop pre2.length = w :: trig :: q := by
        rw [htext, List.append_assoc]
        exact List.drop_left' rfl
      have hws : wsBranchAt trig qOk text pre2.length = true :=
        wsBranchAt_iff.mpr ⟨w, q, hdrop, hw, hq⟩
      have hmem : pre2.length ∈ List.range text.length := by
        rw [List.mem_range, htext]
        simp only [List.length_append, List.length_cons]
        omega
      cases hfind : (List.range text.length).find? (wsBranchAt trig qOk text) with
      | some j => rfl
      | none =>
        rw [List.find?_eq_none] at hfind
        exact absurd hws (hfind _ hmem)

theorem triggeredAt_of_rawMatch_isSome {trig : Char} {qOk : List Char → Bool}
    {text : List Char} (h : (rawMatch trig qOk text).isSome = true) :
    TriggeredAt trig qOk text := by
  unfold rawMatch at h
  split at h
  next hs =>
    obtain ⟨q, htext, hq⟩ := startBranch_iff.mp hs
    exact ⟨[], q, by simpa using htext, Or.inl rfl, hq⟩
  next hs =>
    cases hfind : (List.range text.length).find? (wsBranchAt trig qOk text) with
    | none =>
      rw [hfind] at h
      cases h
    | some j =>
      have hws := List.find?_some hfind
      obtain ⟨w, q, hdrop, hw, hq⟩ := wsBranchAt_iff.mp hws
      obtain ⟨pre, htext, hlen⟩ := drop_decomp hdrop (by simp)
      refine ⟨pre ++ [w], q, ?_, Or.inr ⟨pre, w, rfl, hw⟩, hq⟩
      rw [htext, List.append_assoc]
      rfl

theorem rawMatch_isSome_iff_triggeredAt {trig : Char} {qOk : List Char → Bool}
    {text : List Char} :
    (rawMatch trig qOk text).isSome = true ↔ TriggeredAt trig qOk text :=
  ⟨triggeredAt_of_rawMatch_isSome, rawMatch_isSome_of_triggeredAt⟩

theorem getMatch_isSome_eq {opts : Opts} {startOff : Nat} {text : List Char} :
    (getMatch opts startOff text).isSome =
      ((mentionRegexMatch opts text).isSome || (tagRegexMatch opts text).isSome) := by
  unfold getMatch
  cases mentionRegexMatch opts text with
  | some rm => rfl
  | none =>
    cases tagRegexMatch opts text with
    | some rt => rfl
    | none => rfl

theorem getMatch_isSome_iff {opts : Opts} {startOff : Nat} {text : List Char} :
    (getMatch opts startOff text).isSome = true ↔
      (TriggeredAt opts.mentionTrigger (mentionQueryOk opts.allowSpace opts.requireText) text ∨
       TriggeredAt opts.hashtagTrigger tagQueryOk text) := by
  rw [getMatch_isSome_eq, Bool.or_eq_true]
  exact or_congr rawMatch_isSome_iff_triggeredAt rawMatch_isSome_iff_triggeredAt

theorem finishMatch_type (startOff : Nat) (text : List Char) (ty : MatchType)
    (rm : RawMatch) : (finishMatch startOff text ty rm).type = ty := rfl

theorem finishMatch_queryText (startOff : Nat) (text : List Char) (ty : MatchType)
    (rm : RawMatch) :
    (finishMatch startOff text ty rm).queryText =
      text.drop (rm.index + (if rm.viaWs then 2 else 1)) := rfl

theorem finishMatch_le (startOff : Nat) (text : List Char) (ty : MatchType)
    (rm : RawMatch) :
    (finishMatch startOff text ty rm).rangeFrom ≤ (finishMatch startOff text ty rm).rangeTo :=
  Nat.le_add_right _ _

theorem finishMatch_startBranch {startOff : Nat} {text : List Char} {ty : MatchType}
    {trig : Char} {q : List Char} (htext : text = trig :: q) (hsp : ¬ trig = ' ') :
    finishMatch startOff text ty ⟨0, false⟩ =
      ⟨startOff, startOff + (q.length + 1), q, ty⟩ := by
  subst htext
  simp [finishMatch, beq_iff_eq, hsp]

theorem finishMatch_wsSpace {startOff : Nat} {text : List Char} {ty : MatchType}
    {i : Nat} {trig : Char} {q : List Char} (hdrop : text.drop i = ' ' :: trig :: q) :
    finishMatch startOff text ty ⟨i, true⟩ =
      ⟨startOff + (i + 1), startOff + (i + 1) + (q.length + 1), q, ty⟩ := by
  have hq : text.drop (i + 2) = q := by
    rw [← List.drop_drop, hdrop]
    rfl
  simp [finishMatch, hdrop, hq]

theorem finishMatch_wsOther {startOff : Nat} {text : List Char} {ty : MatchType}
    {i : Nat} {w trig : Char} {q : List Char} (hdrop : text.drop i = w :: trig :: q)
    (hw : ¬ w = ' ') :
    finishMatch startOff text ty ⟨i, true⟩ =
      ⟨startOff + i, startOff + i + (q.length + 2), q, ty⟩ := by
  have hq : text.drop (i + 2) = q := by
    rw [← List.drop_drop, hdrop]
    rfl
  simp [finishMatch, hdrop, hq, beq_iff_eq, hw]

theorem getMatch_mention_eq {opts : Opts} {startOff : Nat} {text : List Char}
    {rm : RawMatch} (hm : mentionRegexMatch opts text = some rm) :
    getMatch opts startOff text = some (finishMatch startOff text MatchType.mention rm) := by
  unfold getMatch
  rw [hm]

theorem getMatch_tag_eq {opts : Opts} {startOff : Nat} {text : List Char}
    {rt : RawMatch} (hm : mentionRegexMatch opts text = none)
    (ht : tagRegexMatch opts text = some rt) :
    getMatch opts startOff text = some (finishMatch startOff text MatchType.tag rt) := by
  unfold getMatch
  rw [hm, ht]

theorem getMatch_some_inv {opts : Opts} {startOff : Nat} {text : List Char}
    {r : MatchResult} (h : getMatch opts startOff text = some r) :
    (∃ rm, mentionRegexMatch opts text = some rm ∧
       r = finishMatch startOff text MatchType.mention rm) ∨
    (∃ rt, mentionRegexMatch opts text = none ∧ tagRegexMatch opts text = some rt ∧
       r = finishMatch startOff text MatchType.tag rt) := by
  unfold getMatch at h
  cases hm : mentionRegexMatch opts text with
  | some rm =>
    rw [hm] at h
    left
    refine ⟨rm, rfl, ?_⟩
    injection h with h1
    exact h1.symm
  | none =>
    rw [hm] at h
    cases ht : tagRegexMatch opts text with
    | some rt =>
      rw [ht] at h
      right
      refine ⟨rt, rfl, rfl, ?_⟩
      injection h with h1
      exact h1.symm
    | none =>
      rw [ht] at h
      cases h

theorem rawMatch_decomp {trig : Char} {qOk : List Char → Bool} {text : List Char}
    {rm : RawMatch} (h : rawMatch trig qOk text = some rm) :
    (rm.viaWs = false ∧ rm.index = 0 ∧
       ∃ q, text = trig :: q ∧ qOk q = true) ∨
    (rm.viaWs = true ∧
       ∃ w q, text.drop rm.index = w :: trig :: q ∧ isWs w = true ∧ qOk q = true) := by
  rcases rm with ⟨i, viaWs⟩
  cases viaWs with
  | false =>
    obtain ⟨hi, hs⟩ := rawMatch_some_false h
    exact Or.inl ⟨rfl, hi, startBranch_iff.mp hs⟩
  | true =>
    obtain ⟨hws, -⟩ := rawMatch_some_true h
    exact Or.inr ⟨rfl, wsBranchAt_iff.mp hws⟩

theorem drop_succ_of_drop_cons {text : List Char} {i : Nat} {w c : Char} {q : List Char}
    (hdrop : text.drop i = w :: c :: q) :
    text.drop (i + 1) = c :: q ∧ text[i]? = some w := by
  constructor
  · rw [← List.drop_drop, hdrop]
    rfl
  · have h0 : (text.drop i)[0]? = some w := by
      rw [hdrop]
      rfl
    rw [List.getElem?_drop] at h0
    simpa using h0

theorem getMatch_queryText {opts : Opts} {startOff : Nat} {text : List Char}
    {r : MatchResult} (h : getMatch opts startOff text = some r) :
    ∃ j, (j = 0 ∨ ∃ w, isWs w = true ∧ text[j - 1]? = some w) ∧
      text.drop j = trigOf opts r.type :: r.queryText := by
  rcases getMatch_some_inv h with ⟨rm, hm, rfl⟩ | ⟨rt, -, ht, rfl⟩
  · rcases rawMatch_decomp hm with ⟨hv, hi, q, htext, -⟩ | ⟨hv, w, q, hdrop, hw, -⟩
    · refine ⟨0, Or.inl rfl, ?_⟩
      rw [List.drop_zero, finishMatch_queryText, finishMatch_type, hi, hv]
      simp only [if_neg Bool.false_ne_true, htext]
      rfl
    · obtain ⟨hnext, hget⟩ := drop_succ_of_drop_cons hdrop
      refine ⟨rm.index + 1, Or.inr ⟨w, hw, by simpa using hget⟩, ?_⟩
      have hq2 : text.drop (rm.index + 2) = q := by
        rw [← List.drop_drop, hdrop]
        rfl
      rw [finishMatch_queryText, finishMatch_type, hv, if_pos rfl, hnext, hq2]
      rfl
  · rcases rawMatch_decomp ht with ⟨hv, hi, q, htext, -⟩ | ⟨hv, w, q, hdrop, hw, -⟩
    · refine ⟨0, Or.inl rfl, ?_⟩
      rw [List.drop_zero, finishMatch_queryText, finishMatch_type, hi, hv]
      simp only [if_neg Bool.false_ne_true, htext]
      rfl
    · obtain ⟨hnext, hget⟩ := drop_succ_of_drop_cons hdrop
      refine ⟨rt.index + 1, Or.inr ⟨w, hw, by simpa using hget⟩, ?_⟩
      have hq2 : text.drop (rt.index + 2) = q := by
        rw [← List.drop_drop, hdrop]
        rfl
      rw [finishMatch_queryText, finishMatch_type, hv, if_pos rfl, hnext, hq2]
      rfl

/-- C1, counterexample: in the stale-fetch trace, fetch 0 originated from
the pair ("mention", "al"); when it resolves last, the current state holds
the pair ("mention", "ali"), so by the claim its items must be discarded
and the overlay must keep fetch 1's items [2]; but the code's pipeline
shows fetch 0's items [1], overwriting the overlay content produced by
fetch 1. -/
theorem c1_counterexample :
    (run false initSys (c1Events.take 4)).inFlight =
      [(0, ⟨"mention", ['a', 'l']⟩), (1, ⟨"mention", ['a', 'l', 'i']⟩)] ∧
    (run false initSys (c1Events.take 5)).overlay = some [2] ∧
    (run false initSys c1Events).plugin.text = ['a', 'l', 'i'] ∧
    (run false initSys c1Events).overlay = some [1] := by
  decide

/-- C1 (amended): the code has no stale-result guard after a fetch has
started: resolving any in-flight getSuggestions call always forwards its
items to the overlay's show operation, whatever the current suggestion
state is, and leaves the plugin state untouched; only tasks superseded
before the debounce timer fires are discarded. -/
theorem c1_no_stale_guard (requireText : Bool) (sys : SysState) (id : Nat)
    (items : List Nat) (snap : FetchSnap) (h : (id, snap) ∈ sys.inFlight) :
    (step requireText sys (Event.resolve id items)).overlay = some items ∧
    (step requireText sys (Event.resolve id items)).plugin = sys.plugin := by
  have hany : sys.inFlight.any (fun p => p.1 == id) = true := by
    rw [List.any_eq_true]
    exact ⟨(id, snap), h, by simp⟩
  simp [step, hany]

/-- C1 witness: a concrete in-flight fetch whose resolution shows its
items. -/
theorem c1_no_stale_guard_witness :
    ((5, (⟨"mention", ['a']⟩ : FetchSnap)) ∈
      ([(5, (⟨"mention", ['a']⟩ : FetchSnap))] : List (Nat × FetchSnap))) ∧
    (step false ⟨getNewState, none, [(5, ⟨"mention", ['a']⟩)], 6, none⟩
      (Event.resolve 5 [3])).overlay = some [3] := by
  refine ⟨List.mem_singleton.mpr rfl, ?_⟩
  exact (c1_no_stale_guard false ⟨getNewState, none, [(5, ⟨"mention", ['a']⟩)], 6, none⟩
    5 [3] ⟨"mention", ['a']⟩ (List.mem_singleton.mpr rfl)).1

/-- C3: N calls to the debounce with consecutive calls separated by less
than the delay produce exactly one execution, of the task supplied by the
last call, at the last call's time plus the delay (trailing edge);
superseded tasks never execute. -/
theorem c3_debounce_trailing_edge {α : Type} (delay : Nat) :
    ∀ (calls : List (Nat × α)) (h : calls ≠ []), allWithin delay calls = true →
      fireTimes delay calls = [((calls.getLast h).1 + delay, (calls.getLast h).2)]
  | [], h, _ => absurd rfl h
  | [(t, f)], _, _ => by simp [fireTimes, List.getLast]
  | (t, f) :: (t2, g) :: rest, _, hw => by
    have hw' : (decide (t2 < t + delay) && allWithin delay ((t2, g) :: rest)) = true := hw
    have hlt : t2 < t + delay := of_decide_eq_true (Bool.and_eq_true_iff.mp hw').1
    have hrec := c3_debounce_trailing_edge delay ((t2, g) :: rest) (by simp)
      (Bool.and_eq_true_iff.mp hw').2
    rw [show fireTimes delay ((t, f) :: (t2, g) :: rest) =
        fireTimes delay ((t2, g) :: rest) from by
      simp only [fireTimes]
      exact if_pos hlt]
    rw [hrec]
    simp [List.getLast_cons]

/-- C3 witness: two calls 100 time units apart with a 500 unit delay fire
exactly once, with the last task, 500 units after the last call. -/
theorem c3_debounce_trailing_edge_witness :
    (([((0 : Nat), (7 : Nat)), (100, 8)] : List (Nat × Nat)) ≠ []) ∧
    allWithin 500 ([((0 : Nat), (7 : Nat)), (100, 8)]) = true ∧
    fireTimes 500 ([((0 : Nat), (7 : Nat)), (100, 8)]) = [(600, 8)] := by
  refine ⟨by simp, by decide, ?_⟩
  have h := c3_debounce_trailing_edge 500 [((0 : Nat), (7 : Nat)), (100, 8)]
    (by simp) (by decide)
  simpa using h

/-- C4: whenever the transaction's resulting selection is a non-empty
range, the state produced by the plugin's apply function is the fresh
inactive state, regardless of the document text. -/
theorem c4_nonempty_selection_inactive (opts : Opts) (sel : SelectionModel)
    (h : sel.selFrom ≠ sel.selTo) :
    applyTr opts sel = getNewState ∧ (applyTr opts sel).active = false := by
  unfold applyTr
  rw [if_pos h]
  exact ⟨rfl, rfl⟩

/-- C4 witness: selection [3,7) over a text that does contain a valid
trigger still yields the inactive state. -/
theorem c4_nonempty_selection_inactive_witness :
    ((3 : Nat) ≠ 7) ∧ applyTr defaultOpts ⟨3, 7, 0, ['@', 'a']⟩ = getNewState := by
  refine ⟨by decide, ?_⟩
  exact (c4_nonempty_selection_inactive defaultOpts ⟨3, 7, 0, ['@', 'a']⟩ (by decide)).1

/-- C6, failing input: on the active state for query "al", Escape does
cancel the pending timeout, hide the overlay, perform the assignment
this.state = getNewState() and consume the event — but the effective
plugin state, the one every later this.getState(view.state) returns, is
unchanged and still active, because the assignment is a dead store and a
consumed Escape dispatches no transaction; a following ArrowDown is
therefore still consumed and still forwards goNext, where the claim's
forced-Inactive state would let it pass through.  Evaluates the code at
the failing input; the claim (and the evident intent of line 272) is not
achieved by the program. -/
theorem c6_escape_dead_store :
    (handleKeyDown stateAl 27).consumed = true ∧
    (handleKeyDown stateAl 27).hidOverlay = true ∧
    (handleKeyDown stateAl 27).cancelledPending = true ∧
    (handleKeyDown stateAl 27).pluginObjState = some getNewState ∧
    (handleKeyDown stateAl 27).effectiveState = stateAl ∧
    (handleKeyDown stateAl 27).effectiveState.active = true ∧
    (handleKeyDown ((handleKeyDown stateAl 27).effectiveState) 40).consumed = true ∧
    (handleKeyDown ((handleKeyDown stateAl 27).effectiveState) 40).calledGoNext = true := by
  decide

/-- C7: when the overlay reports no highlighted candidate, the selection
algorithm dispatches no transaction and leaves the document and the
suggestion state exactly as they were. -/
theorem c7_select_no_highlight (attrs : Option (List (String × String)))
    (doc : List Inline) (st : SuggestionState) (h : attrs = none) :
    select attrs doc st = (doc, st, false) := by
  subst h
  rfl

/-- C7 witness: a concrete no-highlight selection invocation changes
nothing. -/
theorem c7_select_no_highlight_witness :
    select none [Inline.ch 'x'] stateAl = ([Inline.ch 'x'], stateAl, false) :=
  c7_select_no_highlight none [Inline.ch 'x'] stateAl rfl

/-- C2, counterexample: in the line "@.b" with the caret at the end, the
trigger is at start of line and the text after it up to the caret, ".b",
contains no whitespace, so the claim's condition demands a match with
queryText ".b"; but the matcher returns none, because the dot is outside
the regex word-character classes. -/
theorem c2_counterexample :
    getMatch defaultOpts 0 ['@', '.', 'b'] = none ∧
    defaultOpts.allowSpace = true ∧
    isWs '.' = false ∧ isWs 'b' = false := by
  decide

/-- C2 (amended): the matcher returns a match if and only if some
occurrence of a trigger character is preceded by start-of-line or by a
whitespace character and the whole text from that trigger to the cursor
lies in the corresponding query language (word characters, i.e. letters,
digits, underscore, hyphen and, for mentions, plus, with at most one
embedded whitespace character for mentions when allowSpace, none
otherwise, and a leading word character required when requireText); and
every returned match sits at such an occurrence with queryText equal to
exactly the text after that trigger character. -/
theorem c2_matcher_characterization (opts : Opts) (startOff : Nat) (text : List Char) :
    ((getMatch opts startOff text).isSome = true ↔
      (TriggeredAt opts.mentionTrigger (mentionQueryOk opts.allowSpace opts.requireText) text ∨
       TriggeredAt opts.hashtagTrigger tagQueryOk text)) ∧
    (∀ r, getMatch opts startOff text = some r →
      ∃ j, (j = 0 ∨ ∃ w, isWs w = true ∧ text[j - 1]? = some w) ∧
        text.drop j = trigOf opts r.type :: r.queryText) :=
  ⟨getMatch_isSome_iff, fun _ h => getMatch_queryText h⟩

/-- C2 witness: on the line "@a" the matcher fires and its queryText is
the text after the trigger. -/
theorem c2_matcher_characterization_witness :
    getMatch defaultOpts 0 ['@', 'a'] = some ⟨0, 2, ['a'], MatchType.mention⟩ ∧
    (∃ j, (j = 0 ∨ ∃ w, isWs w = true ∧ (['@', 'a'] : List Char)[j - 1]? = some w) ∧
      (['@', 'a'] : List Char).drop j = trigOf defaultOpts MatchType.mention :: ['a']) := by
  refine ⟨by decide, ?_⟩
  exact (c2_matcher_characterization defaultOpts 0 ['@', 'a']).2
    ⟨0, 2, ['a'], MatchType.mention⟩ (by decide)

/-- C5, counterexample: in the line "a»tab«@b" the raw regex match starts
at the tab, a whitespace character, so by the claim the tab must be
stripped and the range must start at offset 2; but the code only strips a
literal space, returns rangeFrom 1 and a range that still covers the
tab. -/
theorem c5_counterexample :
    mentionRegexMatch defaultOpts ['a', '\t', '@', 'b'] = some ⟨1, true⟩ ∧
    isWs '\t' = true ∧
    getMatch defaultOpts 0 ['a', '\t', '@', 'b'] =
      some ⟨1, 4, ['b'], MatchType.mention⟩ ∧
    ¬ (1 : Nat) = 1 + 1 := by
  decide

/-- C5 (amended): only a leading space character (not an arbitrary
whitespace character) is stripped from the raw match: when the raw match
starts with a space the range starts one position later, at the trigger,
and spans the trigger plus the query; when it starts with any other
anchoring whitespace the range keeps the raw start and also covers that
whitespace character; and on the line "hello @ali" with the caret at the
end and default options the matcher returns range [6,10), queryText "ali",
type mention. -/
theorem c5_space_strip (startOff : Nat) (text : List Char) (ty : MatchType) :
    (∀ (i : Nat) (trig : Char) (q : List Char), text.drop i = ' ' :: trig :: q →
      finishMatch startOff text ty ⟨i, true⟩ =
        ⟨startOff + (i + 1), startOff + (i + 1) + (q.length + 1), q, ty⟩) ∧
    (∀ (i : Nat) (w trig : Char) (q : List Char), text.drop i = w :: trig :: q →
      ¬ w = ' ' →
      finishMatch startOff text ty ⟨i, true⟩ =
        ⟨startOff + i, startOff + i + (q.length + 2), q, ty⟩) ∧
    getMatch defaultOpts 0 ['h', 'e', 'l', 'l', 'o', ' ', '@', 'a', 'l', 'i'] =
      some ⟨6, 10, ['a', 'l', 'i'], MatchType.mention⟩ := by
  refine ⟨?_, ?_, by decide⟩
  · intro i trig q hdrop
    exact finishMatch_wsSpace hdrop
  · intro i w trig q hdrop hw
    exact finishMatch_wsOther hdrop hw

/-- C5 witness: a raw match anchored by a space is stripped to start at
the trigger. -/
theorem c5_space_strip_witness :
    (([' ', '@', 'a'] : List Char).drop 0 = ' ' :: '@' :: ['a']) ∧
    finishMatch 0 [' ', '@', 'a'] MatchType.mention ⟨0, true⟩ =
      ⟨1, 3, ['a'], MatchType.mention⟩ := by
  refine ⟨rfl, ?_⟩
  have h := (c5_space_strip 0 [' ', '@', 'a'] MatchType.mention).1 0 '@' ['a'] rfl
  simpa using h

/-- C8: whenever both the mention regex and the tag regex match the text,
getMatch returns the mention match: the result is built from the mention
raw match and its type is mention. -/
theorem c8_mention_priority (opts : Opts) (startOff : Nat) (text : List Char)
    (rm rt : RawMatch) (hm : mentionRegexMatch opts text = some rm)
    (ht : tagRegexMatch opts text = some rt) :
    getMatch opts startOff text = some (finishMatch startOff text MatchType.mention rm) ∧
    (finishMatch startOff text MatchType.mention rm).type = MatchType.mention :=
  ⟨getMatch_mention_eq hm, rfl⟩

/-- C8 witness: with both triggers configured as "@" the text "@ab" is
matched by both regexes and the mention match wins. -/
theorem c8_mention_priority_witness :
    mentionRegexMatch ⟨'@', '@', true, false⟩ ['@', 'a', 'b'] = some ⟨0, false⟩ ∧
    tagRegexMatch ⟨'@', '@', true, false⟩ ['@', 'a', 'b'] = some ⟨0, false⟩ ∧
    getMatch ⟨'@', '@', true, false⟩ 0 ['@', 'a', 'b'] =
      some (finishMatch 0 ['@', 'a', 'b'] MatchType.mention ⟨0, false⟩) := by
  refine ⟨by decide, by decide, ?_⟩
  exact (c8_mention_priority ⟨'@', '@', true, false⟩ 0 ['@', 'a', 'b'] ⟨0, false⟩ ⟨0, false⟩
    (by decide) (by decide)).1

/-- C9: the inline token formats round-trip: serializing a mention node
with attributes did and handle through toDOM and parsing it back through
the parseDOM selector and getAttrs recovers exactly did and handle, with
rendered text "@" followed by the handle; and likewise for a tag node with
attribute tag, rendered as "#" followed by the tag. -/
theorem c9_node_roundtrip (did handle tag : String) :
    mentionGetAttrs (mentionToDOM ⟨did, handle⟩) = some ⟨did, handle⟩ ∧
    (mentionToDOM ⟨did, handle⟩).content = "@" ++ handle ∧
    tagGetAttrs (tagToDOM ⟨tag⟩) = some ⟨tag⟩ ∧
    (tagToDOM ⟨tag⟩).content = "#" ++ tag := by
  refine ⟨?_, rfl, ?_, rfl⟩
  · rfl
  · rfl

/-- C10, counterexample: on the line "x»tab«@y" the matcher returns range
[1,4) and queryText "y", so the range length is 3, not 1 plus the query
length: the span also covers the anchoring tab, which the code does not
strip. -/
theorem c10_counterexample :
    getMatch defaultOpts 0 ['x', '\t', '@', 'y'] =
      some ⟨1, 4, ['y'], MatchType.mention⟩ ∧
    ¬ ((4 : Nat) - 1 = (['y'] : List Char).length + 1) := by
  decide

/-- C10 (amended): for triggers that are not the space character, every
result of the matcher satisfies rangeFrom less-or-equal rangeTo, and the
range length is the query length plus one (exactly the trigger character
followed by the query) except when the match was anchored by a non-space
whitespace character, in which case the range length is the query length
plus two and the character at the range start is that whitespace
character. -/
theorem c10_range_length (opts : Opts) (startOff : Nat) (text : List Char)
    (r : MatchResult) (hmt : ¬ opts.mentionTrigger = ' ')
    (hht : ¬ opts.hashtagTrigger = ' ')
    (h : getMatch opts startOff text = some r) :
    r.rangeFrom ≤ r.rangeTo ∧
    (r.rangeTo - r.rangeFrom = r.queryText.length + 1 ∨
      (r.rangeTo - r.rangeFrom = r.queryText.length + 2 ∧
       ∃ w, isWs w = true ∧ ¬ w = ' ' ∧ text[r.rangeFrom - startOff]? = some w)) := by
  rcases getMatch_some_inv h with ⟨rm, hmm, rfl⟩ | ⟨rt, -, ht, rfl⟩
  · refine ⟨finishMatch_le .., ?_⟩
    rcases rawMatch_decomp hmm with ⟨hv, hi, q, htext, -⟩ | ⟨hv, w, q, hdrop, hws, -⟩
    · have hrm : rm = ⟨0, false⟩ := by
        rcases rm with ⟨a, b⟩
        simp_all
      rw [hrm, finishMatch_startBranch htext hmt]
      left
      simp
    · have hrm : rm = ⟨rm.index, true⟩ := by
        rcases rm with ⟨a, b⟩
        simp_all
      by_cases hsp : w = ' '
      · subst hsp
        rw [hrm, finishMatch_wsSpace hdrop]
        left
        simp
      · rw [hrm, finishMatch_wsOther hdrop hsp]
        right
        refine ⟨by simp, w, hws, hsp, ?_⟩
        simp only [Nat.add_sub_cancel_left]
        exact (drop_succ_of_drop_cons hdrop).2
  · refine ⟨finishMatch_le .., ?_⟩
    rcases rawMatch_decomp ht with ⟨hv, hi, q, htext, -⟩ | ⟨hv, w, q, hdrop, hws, -⟩
    · have hrt : rt = ⟨0, false⟩ := by
        rcases rt with ⟨a, b⟩
        simp_all
      rw [hrt, finishMatch_startBranch htext hht]
      left
      simp
    · have hrt : rt = ⟨rt.index, true⟩ := by
        rcases rt with ⟨a, b⟩
        simp_all
      by_cases hsp : w = ' '
      · subst hsp
        rw [hrt, finishMatch_wsSpace hdrop]
        left
        simp
      · rw [hrt, finishMatch_wsOther hdrop hsp]
        right
        refine ⟨by simp, w, hws, hsp, ?_⟩
        simp only [Nat.add_sub_cancel_left]
        exact (drop_succ_of_drop_cons hdrop).2

/-- C10 witness: on the line "@a" the range is [0,2), of length one plus
the query length. -/
theorem c10_range_length_witness :
    getMatch defaultOpts 0 ['@', 'a'] = some ⟨0, 2, ['a'], MatchType.mention⟩ ∧
    (⟨0, 2, ['a'], MatchType.mention⟩ : MatchResult).rangeFrom ≤
      (⟨0, 2, ['a'], MatchType.mention⟩ : MatchResult).rangeTo := by
  refine ⟨by decide, ?_⟩
  exact (c10_range_length defaultOpts 0 ['@', 'a'] ⟨0, 2, ['a'], MatchType.mention⟩
    (by decide) (by decide) (by decide)).1

end ProsemirrorMentions
